import Mathlib

/-
Verification of the scrape-target aggregation and relabeling engine of the
parca_scrape charm library (lib/charms/parca/v0/parca_scrape.py).

The consumer-side pipeline is embedded shallowly:

  ProfilingEndpointConsumer.jobs
    -> _static_scrape_config (per relation)
         -> _sanitize_scrape_configuration (per job)
         -> _relation_hosts
         -> _labeled_static_job_config (per job)
              -> _labeled_unitless_config / _labeled_unit_config
              -> _set_juju_labels

Python dictionaries are modelled as ordered association lists with Python
dict semantics (insertion order, overwrite in place, duplicate-free keys by
construction).  Python exceptions (the uncaught ValueError raised by
`host, port = target.split(":")` and the TypeError from iterating a missing
key) are modelled with `Except String`.  Python truthiness of strings, lists
and dicts is modelled explicitly at each use site.
-/

set_option linter.unusedVariables false

namespace ParcaScrape

/-- Lookup in a Python dict modelled as an ordered association list; the
first binding of a key wins (dicts built by the code are duplicate-free). -/
def dictGet {α : Type} : List (String × α) → String → Option α
  | [], _ => none
  | p :: ps, k => if p.1 = k then some p.2 else dictGet ps k

/-- Python dict item assignment: overwrite the existing binding in place,
otherwise append the new binding (insertion order is preserved). -/
def dictSet {α : Type} : List (String × α) → String → α → List (String × α)
  | [], k, v => [(k, v)]
  | p :: ps, k, v => if p.1 = k then (k, v) :: ps else p :: dictSet ps k v

/-- Python dict.update: apply every binding of the second dict in order. -/
def dictUpdate {α : Type} (d u : List (String × α)) : List (String × α) :=
  u.foldl (fun acc p => dictSet acc p.1 p.2) d

/-- JSON-like values, for the raw job dictionaries handed to
_sanitize_scrape_configuration over relation data. -/
inductive JVal : Type where
  | s : String → JVal
  | arr : List JVal → JVal
  | obj : List (String × JVal) → JVal

/-- ALLOWED_KEYS of parca_scrape.py. -/
def ALLOWED_KEYS : List String :=
  ["job_name", "static_configs", "scrape_interval", "scrape_timeout"]

/-- DEFAULT_JOB of parca_scrape.py:
a single target group with the single wildcard target "*:80". -/
def DEFAULT_JOB : List (String × JVal) :=
  [("static_configs", JVal.arr [JVal.obj [("targets", JVal.arr [JVal.s "*:80"])]])]

/-- _sanitize_scrape_configuration: start from a copy of DEFAULT_JOB and
update it with the allow-listed entries of the raw job (in their order). -/
def sanitize_scrape_configuration (job : List (String × JVal)) :
    List (String × JVal) :=
  dictUpdate DEFAULT_JOB (job.filter (fun p => decide (p.1 ∈ ALLOWED_KEYS)))

/-- One relabeling rule, the wire shape of a relabel_configs entry. -/
structure RelabelConfig where
  source_labels : List String
  separator : String
  target_label : String
  regex : String
deriving DecidableEq

/-- One static_configs entry: a target group before expansion, or a concrete
static entry after expansion.  Absent keys default like Python .get does. -/
structure StaticConfig where
  targets : List String := []
  labels : List (String × String) := []
deriving DecidableEq

/-- A job dictionary restricted to the fields the relabeling engine reads.
`none` models an absent key. -/
structure Job where
  job_name : Option String := none
  static_configs : Option (List StaticConfig) := none
  relabel_configs : Option (List RelabelConfig) := none
deriving DecidableEq

/-- Modelled from the spec: a publisher's identity metadata (the JujuTopology
record of the external observability charm library, which is not part of this
repository) - group name (model), group instance id (model uuid) and subgroup
name (application).  The member (unit) name is deliberately excluded. -/
structure JujuTopology where
  model : String
  model_uuid : String
  application : String
deriving DecidableEq

/-- Modelled from the spec: the scope identifier combining group, instance and
subgroup, independent of member identity (the identifier property of the
external JujuTopology library). -/
def JujuTopology.identifier (md : JujuTopology) : String :=
  md.model ++ "_" ++ md.model_uuid ++ "_" ++ md.application

/-- Modelled from the spec: the identity label set for group/instance/subgroup
excluding the member name (label_matcher_dict of the external JujuTopology
library); the keys match the relabel source labels written literally in
_labeled_static_job_config. -/
def label_matcher_dict (md : JujuTopology) : List (String × String) :=
  [("juju_model", md.model), ("juju_model_uuid", md.model_uuid),
   ("juju_application", md.application)]

/-- The default static_configs value, as the typed pipeline sees it. -/
def default_static_configs : List StaticConfig :=
  [{ targets := ["*:80"], labels := [] }]

/-- Typed restriction of _sanitize_scrape_configuration to the fields the
relabeling engine reads: the job name survives unchanged, static_configs is
replaced by the default single wildcard group exactly when the key is absent
(an explicitly empty list is kept, since dict.update overwrites the default),
and relabel_configs, not being in ALLOWED_KEYS, is dropped. -/
def sanitize_job (j : Job) : Job :=
  { job_name := j.job_name,
    static_configs := some (j.static_configs.getD default_static_configs),
    relabel_configs := none }

/-- Python str.strip(): drop whitespace from both ends. -/
def pyStrip (s : String) : String :=
  String.mk
    (((s.data.dropWhile Char.isWhitespace).reverse.dropWhile Char.isWhitespace).reverse)

/-- Python str.split(sep) for a one-character separator: the list of chunks
between occurrences of the separator (length = number of occurrences + 1). -/
def splitOnChar (c : Char) : List Char → List (List Char)
  | [] => [[]]
  | x :: xs =>
    let r := splitOnChar c xs
    if x = c then [] :: r
    else
      match r with
      | [] => [[x]]
      | p :: ps => (x :: p) :: ps

/-- `host, port = target.split(":")`: succeeds exactly when the split yields
two parts; otherwise Python raises an uncaught ValueError. -/
def splitTarget (t : String) : Option (String × String) :=
  match splitOnChar ':' t.data with
  | [h, p] => some (String.mk h, String.mk p)
  | _ => none

/-- The target-partitioning loop of _labeled_static_job_config: a wildcard
target contributes its stripped port, any other target is kept whole, and a
target that does not split into exactly host and port raises (ValueError). -/
def partitionTargets : List String → Except String (List String × List String)
  | [] => .ok ([], [])
  | t :: ts =>
    match splitTarget t with
    | none => .error "ValueError: malformed scrape target"
    | some hp =>
      match partitionTargets ts with
      | .error e => .error e
      | .ok pu =>
        if pyStrip hp.1 = "*" then .ok (pyStrip hp.2 :: pu.1, pu.2)
        else .ok (pu.1, t :: pu.2)

/-- _set_juju_labels: copy the user labels and update them with the identity
labels, so the identity values overwrite user values on key collisions. -/
def set_juju_labels (labels : List (String × String)) (md : JujuTopology) :
    List (String × String) :=
  dictUpdate labels (label_matcher_dict md)

/-- _labeled_unitless_config: the static entry for fully qualified targets. -/
def labeled_unitless_config (targets : List String)
    (labels : List (String × String)) (md : JujuTopology) : StaticConfig :=
  { targets := targets, labels := set_juju_labels labels md }

/-- _labeled_unit_config: the static entry for one member (unit); its address
is joined to every wildcard port, or used bare when no port was collected. -/
def labeled_unit_config (unit_name host_address : String) (ports : List String)
    (labels : List (String × String)) (md : JujuTopology) : StaticConfig :=
  { labels := dictSet (set_juju_labels labels md) "juju_unit" unit_name,
    targets :=
      if ports.isEmpty then [host_address]
      else ports.map (fun p => host_address ++ ":" ++ p) }

/-- One iteration of the static_configs loop of _labeled_static_job_config:
partition the group's targets, emit the fully-qualified entry when such
targets exist, then one entry per member of the membership snapshot. -/
def expandGroup (hosts : List (String × String)) (md : JujuTopology)
    (sc : StaticConfig) : Except String (List StaticConfig) :=
  match partitionTargets sc.targets with
  | .error e => .error e
  | .ok pu =>
    .ok ((if pu.2.isEmpty then [] else [labeled_unitless_config pu.2 sc.labels md]) ++
      hosts.map (fun h => labeled_unit_config h.1 h.2 pu.1 sc.labels md))

/-- The full static_configs loop: concatenate each group's entries in order;
the Bool records whether the member loop body ran at least once, i.e. whether
"juju_unit" was appended to the relabel rule's source labels. -/
def processGroups (hosts : List (String × String)) (md : JujuTopology) :
    List StaticConfig → Except String (List StaticConfig × Bool)
  | [] => .ok ([], false)
  | g :: gs =>
    match expandGroup hosts md g with
    | .error e => .error e
    | .ok here =>
      match processGroups hosts md gs with
      | .error e => .error e
      | .ok rest => .ok (here ++ rest.1, !hosts.isEmpty || rest.2)

/-- The uniqueness relabeling rule built by _labeled_static_job_config; the
flag says whether "juju_unit" was appended to its source labels. -/
def instance_relabel_config (withUnit : Bool) : RelabelConfig :=
  { source_labels := ["juju_model", "juju_model_uuid", "juju_application"] ++
      (if withUnit then ["juju_unit"] else []),
    separator := "_",
    target_label := "instance",
    regex := "(.*)" }

/-- The resolved job name: the scope identifier alone when the template name
is absent or empty (Python truthiness), else scope identifier, "_", name. -/
def resolved_job_name (scope_id : String) (name : Option String) : String :=
  match name with
  | some s => if s = "" then scope_id else scope_id ++ "_" ++ s
  | none => scope_id

/-- _labeled_static_job_config.  Iterating over an absent static_configs key
would raise TypeError in Python, modelled as an error (unreachable through
the pipeline since sanitization always sets the key). -/
def labeled_static_job_config (job : Job) (scope_id : String)
    (hosts : List (String × String)) (md : JujuTopology) : Except String Job :=
  match job.static_configs with
  | none => .error "TypeError: static_configs is not iterable"
  | some scs =>
    match processGroups hosts md scs with
    | .error e => .error e
    | .ok cf =>
      .ok { job_name := some (resolved_job_name scope_id job.job_name),
            static_configs := some cf.1,
            relabel_configs :=
              some ((job.relabel_configs.getD []) ++ [instance_relabel_config cf.2]) }

/-- One related unit: its platform name and the optional relation-data entries
read by _relation_hosts (`none` models an absent key). -/
structure RUnit where
  name : String
  data_name : Option String := none
  data_address : Option String := none
  data_host : Option String := none
deriving DecidableEq

/-- Python `a or b` on optional strings: None and "" are falsy. -/
def pyOr (a b : Option String) : Option String :=
  match a with
  | some s => if s = "" then b else some s
  | none => b

/-- _relation_hosts: map unit names to addresses, falling back to the
platform unit name; units without a truthy name and address are dropped;
for a duplicate name the last write wins (dict semantics). -/
def relation_hosts (units : List RUnit) : List (String × String) :=
  units.foldl
    (fun h u =>
      match pyOr u.data_name (some u.name), pyOr u.data_address u.data_host with
      | some n, some a => if n = "" ∨ a = "" then h else dictSet h n a
      | _, _ => h)
    []

/-- One relation (one publisher): the connected units and the application-data
payloads.  scrape_jobs models the parsed scrape_jobs JSON (absent key parses
to []); scrape_metadata models the parsed scrape_metadata JSON, with none for
an absent key or empty dict (both falsy in Python). -/
structure Relation where
  units : List RUnit := []
  scrape_jobs : List Job := []
  scrape_metadata : Option JujuTopology := none
deriving DecidableEq

/-- The per-job loop of _static_scrape_config: sanitize then label each job in
order; an exception raised for any job propagates uncaught. -/
def label_jobs (scope_id : String) (hosts : List (String × String))
    (md : JujuTopology) : List Job → Except String (List Job)
  | [] => .ok []
  | j :: js =>
    match labeled_static_job_config (sanitize_job j) scope_id hosts md with
    | .error e => .error e
    | .ok c =>
      match label_jobs scope_id hosts md js with
      | .error e => .error e
      | .ok cs => .ok (c :: cs)

/-- _static_scrape_config: nothing without units or without scrape_jobs; the
raw scrape_jobs unchanged when scrape_metadata is absent; otherwise each job
is sanitized and labeled under the publisher's scope identifier. -/
def static_scrape_config (r : Relation) : Except String (List Job) :=
  if r.units.isEmpty then .ok []
  else if r.scrape_jobs.isEmpty then .ok []
  else
    match r.scrape_metadata with
    | none => .ok r.scrape_jobs
    | some md =>
      label_jobs md.identifier (relation_hosts r.units) md r.scrape_jobs

/-- ProfilingEndpointConsumer.jobs: concatenate every relation's scrape jobs
in relation order; an exception raised for any relation propagates uncaught,
aborting the whole aggregation. -/
def jobs : List Relation → Except String (List Job)
  | [] => .ok []
  | r :: rs =>
    match static_scrape_config r with
    | .error e => .error e
    | .ok js =>
      match jobs rs with
      | .error e => .error e
      | .ok rest => .ok (js ++ rest)

/-- Whether an Except-modelled computation raised. -/
def isErr {α : Type} : Except String α → Bool
  | .error _ => true
  | .ok _ => false

/-- A publisher whose only job template contains the colon-less target
"bad-target" (concrete input for C1). -/
def c1_bad_rel : Relation :=
  { units := [{ name := "app/0", data_address := some "10.0.0.1" }],
    scrape_jobs := [{ job_name := some "badjob",
                      static_configs := some [{ targets := ["bad-target"] }] }],
    scrape_metadata := some { model := "m", model_uuid := "u", application := "a" } }

/-- A second, well-formed publisher (concrete input for C1). -/
def c1_good_rel : Relation :=
  { units := [{ name := "web/0", data_address := some "10.0.0.2" }],
    scrape_jobs := [{ job_name := some "good",
                      static_configs := some [{ targets := ["*:9090"] }] }],
    scrape_metadata := some { model := "m2", model_uuid := "u2", application := "a2" } }

/-- A raw job template as published (concrete input for C2). -/
def c2_raw_job : Job :=
  { job_name := some "rawjob",
    static_configs := some [{ targets := ["*:7777"], labels := [("foo", "bar")] }] }

/-- A publisher with units and templates but absent metadata (C2). -/
def c2_rel : Relation :=
  { units := [{ name := "app/0", data_address := some "10.0.0.3" }],
    scrape_jobs := [c2_raw_job],
    scrape_metadata := none }

/-- A job template whose fully-qualified target group carries a user-supplied
label under the member-name key (concrete input for C3). -/
def c3_job : Job :=
  { static_configs :=
      some [{ targets := ["10.0.0.9:9090"], labels := [("juju_unit", "fake")] }] }

/-- Identity metadata for the C3 inputs. -/
def c3_md : JujuTopology := { model := "m", model_uuid := "u", application := "a" }

/-- Identity metadata for the C3 witness. -/
def c3w_md : JujuTopology := { model := "mm", model_uuid := "uu", application := "aa" }

/-- A wildcard-only job template (concrete input for C4). -/
def c4w_job : Job := { static_configs := some [{ targets := ["*:80"] }] }

/-- A one-member membership snapshot (concrete input for C4). -/
def c4w_hosts : List (String × String) := [("app/0", "10.0.0.5")]

/-- Identity metadata for the C4 witness. -/
def c4w_md : JujuTopology := { model := "m", model_uuid := "u", application := "a" }

/-- The concrete job the engine produces from the C4 inputs. -/
def c4w_result : Job :=
  { job_name := some "scope",
    static_configs := some
      [{ targets := ["10.0.0.5:80"],
         labels := [("juju_model", "m"), ("juju_model_uuid", "u"),
                    ("juju_application", "a"), ("juju_unit", "app/0")] }],
    relabel_configs := some [instance_relabel_config true] }

/-- A publisher with one connected unit that has not published an address, so
the resolved membership snapshot is empty (concrete input for C6). -/
def c6_rel : Relation :=
  { units := [{ name := "app/0" }],
    scrape_jobs := [{ static_configs := some [{ targets := ["*:8080"] }] }],
    scrape_metadata := some { model := "m", model_uuid := "u", application := "a" } }

/-- The same publisher with no connected units at all (concrete input for the
C6 counterexample). -/
def c6_nounits_rel : Relation :=
  { units := [],
    scrape_jobs := [{ static_configs := some [{ targets := ["*:8080"] }] }],
    scrape_metadata := some { model := "m", model_uuid := "u", application := "a" } }

/-- A publisher with two nameless job templates (concrete input for C7). -/
def c7_rel : Relation :=
  { units := [{ name := "app/0", data_address := some "10.0.0.7" }],
    scrape_jobs :=
      [{ static_configs := some [{ targets := ["*:1000"] }] },
       { static_configs := some [{ targets := ["*:2000"] }] }],
    scrape_metadata := some { model := "m", model_uuid := "u", application := "a" } }

/-- The concrete job the engine produces from the C7 publisher for one port. -/
def c7_out (port : String) : Job :=
  { job_name := some "m_u_a",
    static_configs := some
      [{ targets := ["10.0.0.7:" ++ port],
         labels := [("juju_model", "m"), ("juju_model_uuid", "u"),
                    ("juju_application", "a"), ("juju_unit", "app/0")] }],
    relabel_configs := some [instance_relabel_config true] }

/-- A job template containing an IPv6-style target with three colons
(concrete input for C10). -/
def c10w_job : Job := { static_configs := some [{ targets := ["[::1]:8080"] }] }

theorem isErr_true_iff {α : Type} (x : Except String α) :
    isErr x = true ↔ ∃ e, x = .error e := by
  cases x <;> simp [isErr]

theorem dictGet_dictSet_self {α : Type} (d : List (String × α)) (k : String) (v : α) :
    dictGet (dictSet d k v) k = some v := by
  induction d with
  | nil => simp [dictSet, dictGet]
  | cons p ps ih =>
    by_cases h : p.1 = k <;> simp [dictSet, dictGet, h, ih]

theorem dictGet_dictSet_ne {α : Type} (d : List (String × α)) (k k' : String) (v : α)
    (h : k' ≠ k) : dictGet (dictSet d k v) k' = dictGet d k' := by
  induction d with
  | nil => simp [dictSet, dictGet, Ne.symm h]
  | cons p ps ih =>
    by_cases hp : p.1 = k
    · subst hp
      simp [dictSet, dictGet, h, Ne.symm h]
    · simp [dictSet, dictGet, hp, ih]

theorem set_juju_labels_eq (l : List (String × String)) (md : JujuTopology) :
    set_juju_labels l md =
      dictSet (dictSet (dictSet l "juju_model" md.model)
        "juju_model_uuid" md.model_uuid) "juju_application" md.application := rfl

theorem set_juju_labels_model (l : List (String × String)) (md : JujuTopology) :
    dictGet (set_juju_labels l md) "juju_model" = some md.model := by
  rw [set_juju_labels_eq,
    dictGet_dictSet_ne _ _ _ _ (by decide),
    dictGet_dictSet_ne _ _ _ _ (by decide),
    dictGet_dictSet_self]

theorem set_juju_labels_uuid (l : List (String × String)) (md : JujuTopology) :
    dictGet (set_juju_labels l md) "juju_model_uuid" = some md.model_uuid := by
  rw [set_juju_labels_eq,
    dictGet_dictSet_ne _ _ _ _ (by decide),
    dictGet_dictSet_self]

theorem set_juju_labels_app (l : List (String × String)) (md : JujuTopology) :
    dictGet (set_juju_labels l md) "juju_application" = some md.application := by
  rw [set_juju_labels_eq, dictGet_dictSet_self]

theorem set_juju_labels_other (l : List (String × String)) (md : JujuTopology)
    (k : String) (h1 : k ≠ "juju_model") (h2 : k ≠ "juju_model_uuid")
    (h3 : k ≠ "juju_application") :
    dictGet (set_juju_labels l md) k = dictGet l k := by
  rw [set_juju_labels_eq,
    dictGet_dictSet_ne _ _ _ _ h3,
    dictGet_dictSet_ne _ _ _ _ h2,
    dictGet_dictSet_ne _ _ _ _ h1]

theorem splitOnChar_ne_nil (c : Char) (l : List Char) : splitOnChar c l ≠ [] := by
  induction l with
  | nil => simp [splitOnChar]
  | cons x xs ih =>
    by_cases h : x = c
    · simp [splitOnChar, h]
    · obtain ⟨p, ps, hr⟩ := List.exists_cons_of_ne_nil ih
      simp [splitOnChar, h, hr]

theorem splitOnChar_length (c : Char) (l : List Char) :
    (splitOnChar c l).length = l.count c + 1 := by
  induction l with
  | nil => simp [splitOnChar]
  | cons x xs ih =>
    by_cases h : x = c
    · simp [splitOnChar, h, ih, List.count_cons]
    · obtain ⟨p, ps, hr⟩ := List.exists_cons_of_ne_nil (splitOnChar_ne_nil c xs)
      rw [hr] at ih
      simp at ih
      simp [splitOnChar, h, hr, List.count_cons]
      omega

theorem splitTarget_eq_none_iff (t : String) :
    splitTarget t = none ↔ t.data.count ':' ≠ 1 := by
  have hlen := splitOnChar_length ':' t.data
  unfold splitTarget
  rcases hsp : splitOnChar ':' t.data with _ | ⟨a, _ | ⟨b, _ | ⟨d, rest⟩⟩⟩ <;>
    rw [hsp] at hlen <;> simp at hlen ⊢ <;> omega

theorem partitionTargets_err (ts : List String) (t : String)
    (hmem : t ∈ ts) (hbad : splitTarget t = none) :
    isErr (partitionTargets ts) = true := by
  induction ts with
  | nil => cases hmem
  | cons t' ts' ih =>
    rcases List.mem_cons.mp hmem with h | h
    · subst h
      simp [partitionTargets, hbad, isErr]
    · cases hs : splitTarget t' with
      | none => simp [partitionTargets, hs, isErr]
      | some hp =>
        obtain ⟨e, he⟩ := (isErr_true_iff _).mp (ih h)
        simp [partitionTargets, hs, he, isErr]

theorem expandGroup_err (hosts : List (String × String)) (md : JujuTopology)
    (sc : StaticConfig) (t : String) (hmem : t ∈ sc.targets)
    (hbad : splitTarget t = none) :
    isErr (expandGroup hosts md sc) = true := by
  obtain ⟨e, he⟩ := (isErr_true_iff _).mp (partitionTargets_err sc.targets t hmem hbad)
  simp [expandGroup, he, isErr]

theorem processGroups_err (hosts : List (String × String)) (md : JujuTopology)
    (gs : List StaticConfig) (g : StaticConfig) (hmem : g ∈ gs)
    (herr : isErr (expandGroup hosts md g) = true) :
    isErr (processGroups hosts md gs) = true := by
  induction gs with
  | nil => cases hmem
  | cons g' gs' ih =>
    rcases List.mem_cons.mp hmem with h | h
    · subst h
      obtain ⟨e, he⟩ := (isErr_true_iff _).mp herr
      simp [processGroups, he, isErr]
    · cases hg : expandGroup hosts md g' with
      | error e => simp [processGroups, hg, isErr]
      | ok here =>
        obtain ⟨e, he⟩ := (isErr_true_iff _).mp (ih h)
        simp [processGroups, hg, he, isErr]

theorem labeled_static_job_config_err (job : Job) (scope_id : String)
    (hosts : List (String × String)) (md : JujuTopology) (scs : List StaticConfig)
    (hscs : job.static_configs = some scs)
    (herr : isErr (processGroups hosts md scs) = true) :
    isErr (labeled_static_job_config job scope_id hosts md) = true := by
  obtain ⟨e, he⟩ := (isErr_true_iff _).mp herr
  simp [labeled_static_job_config, hscs, he, isErr]

theorem label_jobs_err (scope_id : String) (hosts : List (String × String))
    (md : JujuTopology) (js : List Job) (j : Job) (hmem : j ∈ js)
    (herr : isErr (labeled_static_job_config (sanitize_job j) scope_id hosts md) = true) :
    isErr (label_jobs scope_id hosts md js) = true := by
  induction js with
  | nil => cases hmem
  | cons j' js' ih =>
    rcases List.mem_cons.mp hmem with h | h
    · subst h
      obtain ⟨e, he⟩ := (isErr_true_iff _).mp herr
      simp [label_jobs, he, isErr]
    · cases hj : labeled_static_job_config (sanitize_job j') scope_id hosts md with
      | error e => simp [label_jobs, hj, isErr]
      | ok c =>
        obtain ⟨e, he⟩ := (isErr_true_iff _).mp (ih h)
        simp [label_jobs, hj, he, isErr]

theorem static_scrape_config_err (r : Relation) (md : JujuTopology)
    (hu : r.units ≠ []) (hmd : r.scrape_metadata = some md)
    (herr : isErr
      (label_jobs md.identifier (relation_hosts r.units) md r.scrape_jobs) = true) :
    isErr (static_scrape_config r) = true := by
  have hu' : r.units.isEmpty = false := by
    simpa [List.isEmpty_iff] using hu
  have hj' : r.scrape_jobs.isEmpty = false := by
    rcases hj : r.scrape_jobs.isEmpty with _ | _
    · rfl
    · rw [List.isEmpty_iff] at hj
      rw [hj] at herr
      simp [label_jobs, isErr] at herr
  simp [static_scrape_config, hu', hj', hmd, herr]

theorem jobs_err (rels : List Relation) (r : Relation) (hmem : r ∈ rels)
    (herr : isErr (static_scrape_config r) = true) :
    isErr (jobs rels) = true := by
  induction rels with
  | nil => cases hmem
  | cons r' rs ih =>
    rcases List.mem_cons.mp hmem with h | h
    · subst h
      obtain ⟨e, he⟩ := (isErr_true_iff _).mp herr
      simp [jobs, he, isErr]
    · cases hr : static_scrape_config r' with
      | error e => simp [jobs, hr, isErr]
      | ok js =>
        obtain ⟨e, he⟩ := (isErr_true_iff _).mp (ih h)
        simp [jobs, hr, he, isErr]

/-- C1, counterexample: with one publisher whose template contains the
colon-less target "bad-target" and a second, well-formed publisher, the
aggregation does not reject only the malformed template - it raises and
returns nothing at all, although the well-formed publisher alone would have
contributed its expanded job.  This falsifies the claim that the aggregation
result still contains the other publishers' jobs. -/
theorem c1_counterexample :
    jobs [c1_bad_rel, c1_good_rel] =
      Except.error "ValueError: malformed scrape target" ∧
    isErr (static_scrape_config c1_good_rel) = false ∧
    Except.map (List.map Job.job_name) (static_scrape_config c1_good_rel) =
      Except.ok [some "m2_u2_a2_good"] := by
  refine ⟨rfl, rfl, rfl⟩

/-- C1 (amended): a job template containing a target string without a ':'
separator does not merely invalidate its own expansion - the ValueError
raised by the target split propagates uncaught through
_labeled_static_job_config, _static_scrape_config and jobs, so the whole
aggregation fails and no publisher's jobs are returned.  (The error is only
reached when the publisher has connected units and published metadata, since
those guards run first.) -/
theorem c1_malformed_target_aborts_aggregation
    (rels : List Relation) (r : Relation) (md : JujuTopology) (j : Job)
    (g : StaticConfig) (t : String)
    (hr : r ∈ rels) (hu : r.units ≠ []) (hmd : r.scrape_metadata = some md)
    (hj : j ∈ r.scrape_jobs)
    (hg : g ∈ ((sanitize_job j).static_configs).getD [])
    (ht : t ∈ g.targets) (hcolon : ':' ∉ t.data) :
    isErr (jobs rels) = true := by
  have hbad : splitTarget t = none := by
    rw [splitTarget_eq_none_iff]
    have h0 : t.data.count ':' = 0 := List.count_eq_zero.mpr hcolon
    omega
  have hscs : (sanitize_job j).static_configs =
      some (j.static_configs.getD default_static_configs) := rfl
  have hg' : g ∈ j.static_configs.getD default_static_configs := hg
  exact jobs_err rels r hr
    (static_scrape_config_err r md hu hmd
      (label_jobs_err _ _ _ _ j hj
        (labeled_static_job_config_err _ _ _ _ _ hscs
          (processGroups_err _ _ _ g hg' (expandGroup_err _ _ _ t ht hbad)))))

/-- C1, witness for the amended theorem: the single-publisher aggregation
over c1_bad_rel fails. -/
theorem c1_witness : isErr (jobs [c1_bad_rel]) = true :=
  c1_malformed_target_aborts_aggregation [c1_bad_rel] c1_bad_rel
    { model := "m", model_uuid := "u", application := "a" }
    { job_name := some "badjob", static_configs := some [{ targets := ["bad-target"] }] }
    { targets := ["bad-target"] } "bad-target"
    (by decide) (by decide) (by decide) (by decide) (by decide) (by decide) (by decide)

/-- C2, counterexample: a publisher with connected units and published job
templates but absent identity metadata does not contribute nothing - the
aggregation result contains its raw (unlabeled, unprefixed) job template
unchanged.  This falsifies the claim that such a publisher contributes no
entries. -/
theorem c2_counterexample :
    jobs [c2_rel] = Except.ok [c2_raw_job] ∧
    c2_rel.scrape_metadata = none ∧
    [c2_raw_job] ≠ ([] : List Job) := by
  refine ⟨rfl, rfl, by decide⟩

/-- C2 (amended): a publisher whose identity metadata is absent but whose
units and scrape_jobs are present contributes its raw job templates
unchanged (unlabeled and unprefixed) to the aggregation result; only a
publisher with no units or no templates contributes nothing. -/
theorem c2_absent_metadata_passes_raw_jobs
    (r : Relation) (hu : r.units ≠ []) (hj : r.scrape_jobs ≠ [])
    (hmd : r.scrape_metadata = none) :
    jobs [r] = Except.ok r.scrape_jobs := by
  have hu' : r.units.isEmpty = false := by simpa [List.isEmpty_iff] using hu
  have hj' : r.scrape_jobs.isEmpty = false := by simpa [List.isEmpty_iff] using hj
  simp [jobs, static_scrape_config, hu', hj', hmd]

/-- C2, witness for the amended theorem at the concrete publisher c2_rel. -/
theorem c2_witness : jobs [c2_rel] = Except.ok c2_rel.scrape_jobs :=
  c2_absent_metadata_passes_raw_jobs c2_rel (by decide) (by decide) rfl

/-- C10: the target split of _labeled_static_job_config succeeds exactly when
the target contains exactly one ':' character; any other colon count (zero,
as in "bad-target", or several, as in the IPv6 literal "[::1]:8080") makes
the partitioning raise, and a job containing such a target makes the whole
job-expansion raise. -/
theorem c10_target_split_requires_exactly_one_colon :
    (∀ t : String, splitTarget t = none ↔ t.data.count ':' ≠ 1) ∧
    (∀ (job : Job) (scope_id : String) (hosts : List (String × String))
       (md : JujuTopology) (scs : List StaticConfig) (g : StaticConfig) (t : String),
       job.static_configs = some scs → g ∈ scs → t ∈ g.targets →
       t.data.count ':' ≠ 1 →
       isErr (labeled_static_job_config job scope_id hosts md) = true) := by
  constructor
  · exact splitTarget_eq_none_iff
  · intro job scope_id hosts md scs g t hscs hg ht hcount
    exact labeled_static_job_config_err _ _ _ _ _ hscs
      (processGroups_err _ _ _ g hg
        (expandGroup_err _ _ _ t ht ((splitTarget_eq_none_iff t).mpr hcount)))

/-- C10, witness: the three-colon target "[::1]:8080" fails to split, and the
job built around it fails to expand. -/
theorem c10_witness :
    (splitTarget "[::1]:8080" = none ↔ ("[::1]:8080".data.count ':' ≠ 1)) ∧
    isErr (labeled_static_job_config c10w_job "scope" []
      { model := "m", model_uuid := "u", application := "a" }) = true :=
  ⟨c10_target_split_requires_exactly_one_colon.1 "[::1]:8080",
   c10_target_split_requires_exactly_one_colon.2 c10w_job "scope" []
     { model := "m", model_uuid := "u", application := "a" }
     [{ targets := ["[::1]:8080"] }] { targets := ["[::1]:8080"] } "[::1]:8080"
     rfl (by decide) (by decide) (by decide)⟩

/-- C3, counterexample: an entry derived from the fully-qualified target
"10.0.0.9:9090" carries the member-name label key "juju_unit" (with the
user-supplied value "fake"), because _set_juju_labels only overwrites the
three group/instance/subgroup keys and never removes a user-supplied
"juju_unit" entry.  This falsifies "entries derived from fully-qualified
targets never carry a member-name label". -/
theorem c3_counterexample :
    Except.map
      (fun out => (out.static_configs.getD []).map
        (fun sc => (sc.targets, dictGet sc.labels "juju_unit")))
      (labeled_static_job_config c3_job "m_u_a" [] c3_md) =
    Except.ok [(["10.0.0.9:9090"], some "fake")] := by
  rfl

/-- C3 (amended): for every target group whose targets partition successfully
into wildcard ports and fully-qualified targets, expansion emits the
fully-qualified entry (exactly when such targets exist) followed by exactly
one member-derived entry per member, in snapshot order; every member-derived
entry carries the member's name under the member-name key and the
group/instance/subgroup labels, and its targets are the member address joined
to each wildcard port, or the bare address when the group declared no
wildcard port; every fully-qualified entry carries the group/instance/
subgroup labels, and carries a member-name key only if the user's own group
labels contained one (the engine never injects it there). -/
theorem c3_expansion_structure
    (hosts : List (String × String)) (md : JujuTopology) (g : StaticConfig)
    (ports unitless : List String)
    (hp : partitionTargets g.targets = .ok (ports, unitless)) :
    expandGroup hosts md g = .ok
      ((if unitless.isEmpty then []
        else [labeled_unitless_config unitless g.labels md]) ++
       hosts.map (fun h => labeled_unit_config h.1 h.2 ports g.labels md)) ∧
    (∀ h : String × String,
      dictGet (labeled_unit_config h.1 h.2 ports g.labels md).labels
        "juju_unit" = some h.1 ∧
      dictGet (labeled_unit_config h.1 h.2 ports g.labels md).labels
        "juju_model" = some md.model ∧
      dictGet (labeled_unit_config h.1 h.2 ports g.labels md).labels
        "juju_model_uuid" = some md.model_uuid ∧
      dictGet (labeled_unit_config h.1 h.2 ports g.labels md).labels
        "juju_application" = some md.application ∧
      (labeled_unit_config h.1 h.2 ports g.labels md).targets =
        (if ports.isEmpty then [h.2]
         else ports.map (fun p => h.2 ++ ":" ++ p))) ∧
    (dictGet (labeled_unitless_config unitless g.labels md).labels
        "juju_model" = some md.model ∧
     dictGet (labeled_unitless_config unitless g.labels md).labels
        "juju_model_uuid" = some md.model_uuid ∧
     dictGet (labeled_unitless_config unitless g.labels md).labels
        "juju_application" = some md.application ∧
     dictGet (labeled_unitless_config unitless g.labels md).labels
        "juju_unit" = dictGet g.labels "juju_unit" ∧
     (labeled_unitless_config unitless g.labels md).targets = unitless) := by
  refine ⟨by simp [expandGroup, hp], fun h => ?_, ?_⟩
  · refine ⟨dictGet_dictSet_self _ _ _, ?_, ?_, ?_, rfl⟩
    · rw [labeled_unit_config, dictGet_dictSet_ne _ _ _ _ (by decide)]
      exact set_juju_labels_model _ _
    · rw [labeled_unit_config, dictGet_dictSet_ne _ _ _ _ (by decide)]
      exact set_juju_labels_uuid _ _
    · rw [labeled_unit_config, dictGet_dictSet_ne _ _ _ _ (by decide)]
      exact set_juju_labels_app _ _
  · exact ⟨set_juju_labels_model _ _, set_juju_labels_uuid _ _,
      set_juju_labels_app _ _,
      set_juju_labels_other _ _ _ (by decide) (by decide) (by decide), rfl⟩

/-- C3, witness for the amended theorem: one member, one wildcard group. -/
theorem c3_witness :
    expandGroup [("app/0", "10.0.0.5")] c3w_md { targets := ["*:8080"] } =
      Except.ok [labeled_unit_config "app/0" "10.0.0.5" ["8080"] [] c3w_md] :=
  (c3_expansion_structure [("app/0", "10.0.0.5")] c3w_md
    { targets := ["*:8080"] } ["8080"] [] rfl).1

theorem processGroups_flag (hosts : List (String × String)) (md : JujuTopology)
    (gs : List StaticConfig) (out : List StaticConfig × Bool)
    (h : processGroups hosts md gs = .ok out) :
    out.2 = (!hosts.isEmpty && !gs.isEmpty) := by
  induction gs generalizing out with
  | nil =>
    simp [processGroups] at h
    rw [← h]
    simp
  | cons g gs' ih =>
    cases he : expandGroup hosts md g with
    | error e => simp [processGroups, he] at h
    | ok here =>
      cases hrest : processGroups hosts md gs' with
      | error e => simp [processGroups, he, hrest] at h
      | ok rest =>
        simp [processGroups, he, hrest] at h
        have hflag := ih rest hrest
        rw [← h]
        simp only [hflag]
        cases hosts <;> simp

/-- C4: the expanded concrete job's relabel rule list is the template's
existing rules with exactly one uniqueness rule (source labels juju_model,
juju_model_uuid, juju_application; separator "_"; target label "instance";
match-all regex) appended, and that rule is last; the rule's source labels
additionally end with the member-name label "juju_unit" exactly when at
least one member-derived entry exists in the job, i.e. exactly when the
membership snapshot and the template's target-group list are both
non-empty (each target group emits one member-derived entry per member, so
this conjunction is equivalent to the existence of such an entry). -/
theorem c4_uniqueness_rule_appended_last
    (job : Job) (scope_id : String) (hosts : List (String × String))
    (md : JujuTopology) (result : Job) (scs : List StaticConfig)
    (hscs : job.static_configs = some scs)
    (hok : labeled_static_job_config job scope_id hosts md = .ok result) :
    result.relabel_configs =
      some ((job.relabel_configs.getD []) ++
        [instance_relabel_config (!hosts.isEmpty && !scs.isEmpty)]) ∧
    (result.relabel_configs.getD []).getLast? =
      some (instance_relabel_config (!hosts.isEmpty && !scs.isEmpty)) ∧
    ((!hosts.isEmpty && !scs.isEmpty) = true ↔ hosts ≠ [] ∧ scs ≠ []) := by
  cases hpg : processGroups hosts md scs with
  | error e =>
    have herr : labeled_static_job_config job scope_id hosts md = .error e := by
      simp [labeled_static_job_config, hscs, hpg]
    rw [herr] at hok
    cases hok
  | ok cf =>
    have hlab : labeled_static_job_config job scope_id hosts md = .ok
        { job_name := some (resolved_job_name scope_id job.job_name),
          static_configs := some cf.1,
          relabel_configs :=
            some ((job.relabel_configs.getD []) ++ [instance_relabel_config cf.2]) } := by
      simp [labeled_static_job_config, hscs, hpg]
    have hflag := processGroups_flag hosts md scs cf hpg
    have hok2 := hlab.symm.trans hok
    injection hok2 with hres
    refine ⟨?_, ?_, ?_⟩
    · rw [← hres]
      simp [hflag]
    · rw [← hres]
      simp [hflag, List.getLast?_concat]
    · cases hosts <;> cases scs <;> simp

/-- C4, witness at a concrete wildcard template with one member. -/
theorem c4_witness :
    c4w_result.relabel_configs =
      some ((c4w_job.relabel_configs.getD []) ++
        [instance_relabel_config
          (!c4w_hosts.isEmpty &&
           !([{ targets := ["*:80"] }] : List StaticConfig).isEmpty)]) :=
  (c4_uniqueness_rule_appended_last c4w_job "scope" c4w_hosts c4w_md
    c4w_result [{ targets := ["*:80"] }] rfl rfl).1

theorem dictUpdate_cons {α : Type} (d : List (String × α)) (p : String × α)
    (ps : List (String × α)) :
    dictUpdate d (p :: ps) = dictUpdate (dictSet d p.1 p.2) ps := rfl

theorem dictSet_keys_cases {α : Type} (d : List (String × α)) (k : String) (v : α) :
    (dictSet d k v).map Prod.fst = d.map Prod.fst ∨
    (dictSet d k v).map Prod.fst = d.map Prod.fst ++ [k] := by
  induction d with
  | nil => right; simp [dictSet]
  | cons p ps ih =>
    by_cases hp : p.1 = k
    · left; simp [dictSet, hp]
    · rcases ih with h | h
      · left; simp [dictSet, hp, h]
      · right; simp [dictSet, hp, h]

theorem dictUpdate_keys_mem {α : Type} (u : List (String × α))
    (d : List (String × α)) (k' : String)
    (h : k' ∈ (dictUpdate d u).map Prod.fst) :
    k' ∈ d.map Prod.fst ∨ k' ∈ u.map Prod.fst := by
  induction u generalizing d with
  | nil => exact Or.inl h
  | cons p ps ih =>
    rcases ih (dictSet d p.1 p.2) h with h' | h'
    · rcases dictSet_keys_cases d p.1 p.2 with hc | hc
      · rw [hc] at h'
        exact Or.inl h'
      · rw [hc] at h'
        rcases List.mem_append.mp h' with h'' | h''
        · exact Or.inl h''
        · right
          simp at h''
          simp [h'']
    · right
      simp [h']

theorem dictGet_dictUpdate_of_not_mem {α : Type} (u : List (String × α))
    (d : List (String × α)) (k : String) (h : ∀ p ∈ u, p.1 ≠ k) :
    dictGet (dictUpdate d u) k = dictGet d k := by
  induction u generalizing d with
  | nil => rfl
  | cons p ps ih =>
    have h1 : p.1 ≠ k := h p (List.mem_cons_self p ps)
    have h2 : ∀ q ∈ ps, q.1 ≠ k := fun q hq => h q (List.mem_cons_of_mem p hq)
    calc dictGet (dictUpdate (dictSet d p.1 p.2) ps) k
        = dictGet (dictSet d p.1 p.2) k := ih (dictSet d p.1 p.2) h2
      _ = dictGet d k := dictGet_dictSet_ne _ _ _ _ (Ne.symm h1)

/-- C5, counterexample: a raw job that explicitly declares an empty
target-group list is not replaced by the default template - dict.update
overwrites the default static_configs with the empty list, so the sanitized
output has zero target groups and is not the default single-wildcard
template.  This falsifies the claim's parenthetical. -/
theorem c5_counterexample :
    sanitize_scrape_configuration [("static_configs", JVal.arr [])] =
      [("static_configs", JVal.arr [])] ∧
    JVal.arr ([] : List JVal) ≠
      JVal.arr [JVal.obj [("targets", JVal.arr [JVal.s "*:80"])]] := by
  refine ⟨rfl, ?_⟩
  intro h
  injection h with h'
  exact List.noConfusion h'

/-- C5 (amended): sanitize never fails (it is a total function), its output
contains only keys from the allow-list {job_name, static_configs,
scrape_interval, scrape_timeout}, and when the raw job does not declare the
static_configs key at all the output carries the default single wildcard
target group ["*:80"]; a raw job explicitly declaring an empty target-group
list keeps the empty list rather than getting the default. -/
theorem c5_sanitize_allowlist_and_default :
    (∀ (job : List (String × JVal)) (k : String),
       k ∈ (sanitize_scrape_configuration job).map Prod.fst →
       k ∈ ALLOWED_KEYS) ∧
    (∀ job : List (String × JVal),
       "static_configs" ∉ job.map Prod.fst →
       dictGet (sanitize_scrape_configuration job) "static_configs" =
         some (JVal.arr [JVal.obj [("targets", JVal.arr [JVal.s "*:80"])]])) ∧
    (∀ tgs : List JVal,
       sanitize_scrape_configuration [("static_configs", JVal.arr tgs)] =
         [("static_configs", JVal.arr tgs)]) := by
  refine ⟨?_, ?_, fun tgs => rfl⟩
  · intro job k hk
    rcases dictUpdate_keys_mem _ _ _ hk with h | h
    · simp [DEFAULT_JOB] at h
      simp [ALLOWED_KEYS, h]
    · obtain ⟨q, hq, hqk⟩ := List.mem_map.mp h
      have hmem := List.mem_filter.mp hq
      have hdec := of_decide_eq_true hmem.2
      rw [hqk] at hdec
      exact hdec
  · intro job hnot
    have hfilter : ∀ p ∈ job.filter (fun p => decide (p.1 ∈ ALLOWED_KEYS)),
        p.1 ≠ "static_configs" := by
      intro p hp hcontra
      exact hnot (List.mem_map.mpr ⟨p, (List.mem_filter.mp hp).1, hcontra⟩)
    rw [sanitize_scrape_configuration, dictGet_dictUpdate_of_not_mem _ _ _ hfilter]
    rfl

/-- C5, witness for the amended theorem: a kept allow-listed key and the
default target group for a job that lacks static_configs. -/
theorem c5_witness :
    ("job_name" ∈ ALLOWED_KEYS) ∧
    (dictGet (sanitize_scrape_configuration [("foo", JVal.s "x")])
       "static_configs" =
     some (JVal.arr [JVal.obj [("targets", JVal.arr [JVal.s "*:80"])]])) :=
  ⟨c5_sanitize_allowlist_and_default.1 [("job_name", JVal.s "j")] "job_name"
     (by decide),
   c5_sanitize_allowlist_and_default.2.1 [("foo", JVal.s "x")] (by decide)⟩

theorem processGroups_no_hosts_wildcards (md : JujuTopology)
    (gs : List StaticConfig)
    (h : ∀ g ∈ gs, ∃ ports, partitionTargets g.targets = .ok (ports, [])) :
    processGroups [] md gs = .ok ([], false) := by
  induction gs with
  | nil => rfl
  | cons g gs' ih =>
    obtain ⟨ports, hp⟩ := h g (List.mem_cons_self g gs')
    have ihh := ih (fun g' hg' => h g' (List.mem_cons_of_mem g hg'))
    simp [processGroups, expandGroup, hp, ihh]

/-- C6, counterexample: a publisher with valid metadata and a wildcard-only
template but no connected units has an empty membership snapshot, yet the
aggregation emits no concrete job at all for it (the `if not relation.units`
guard returns early).  This falsifies the claim that an empty snapshot never
suppresses the job. -/
theorem c6_counterexample :
    jobs [c6_nounits_rel] = Except.ok [] ∧
    relation_hosts c6_nounits_rel.units = [] ∧
    c6_nounits_rel.scrape_jobs ≠ [] ∧
    c6_nounits_rel.scrape_metadata ≠ none := by
  refine ⟨rfl, rfl, by decide, by decide⟩

/-- C6 (amended): for a publisher with valid metadata, a wildcard-only
template and at least one connected unit, an empty resolved membership
snapshot (no unit published a name and address) is not an error and does not
suppress the job: the aggregation still emits the concrete job with its
resolved name and finalized relabel rule list (without the member-name
source label) and zero static entries.  Only a publisher with no connected
units at all is skipped. -/
theorem c6_empty_snapshot_still_emits_job
    (r : Relation) (md : JujuTopology) (j : Job)
    (hu : r.units ≠ []) (hhosts : relation_hosts r.units = [])
    (hmd : r.scrape_metadata = some md) (hjobs : r.scrape_jobs = [j])
    (hwild : ∀ g ∈ (sanitize_job j).static_configs.getD [],
      ∃ ports, partitionTargets g.targets = .ok (ports, [])) :
    jobs [r] = Except.ok
      [{ job_name := some (resolved_job_name md.identifier j.job_name),
         static_configs := some [],
         relabel_configs := some [instance_relabel_config false] }] := by
  have hu' : r.units.isEmpty = false := by simpa [List.isEmpty_iff] using hu
  have hwild' : ∀ g ∈ j.static_configs.getD default_static_configs,
      ∃ ports, partitionTargets g.targets = .ok (ports, []) := hwild
  have hpg := processGroups_no_hosts_wildcards md _ hwild'
  have hlab : labeled_static_job_config (sanitize_job j) md.identifier
      (relation_hosts r.units) md = Except.ok
      { job_name := some (resolved_job_name md.identifier j.job_name),
        static_configs := some [],
        relabel_configs := some [instance_relabel_config false] } := by
    rw [hhosts]
    simp [labeled_static_job_config, sanitize_job, hpg]
  simp [jobs, static_scrape_config, hu', hjobs, label_jobs, hmd, hlab]

/-- C6, witness for the amended theorem: one connected unit without a
published address, one wildcard template. -/
theorem c6_witness :
    jobs [c6_rel] = Except.ok
      [{ job_name := some "m_u_a", static_configs := some [],
         relabel_configs := some [instance_relabel_config false] }] :=
  c6_empty_snapshot_still_emits_job c6_rel
    { model := "m", model_uuid := "u", application := "a" }
    { static_configs := some [{ targets := ["*:8080"] }] }
    (by decide) rfl rfl rfl
    (by
      intro g hg
      have hg' : g ∈ [({ targets := ["*:8080"] } : StaticConfig)] := hg
      rw [List.mem_singleton] at hg'
      subst hg'
      exact ⟨["8080"], rfl⟩)

/-- C7, counterexample: one publisher with two nameless templates produces
two distinct concrete jobs with the identical resolved name "m_u_a", so job
names within one aggregation result are not unique.  This falsifies the
uniqueness half of the claim. -/
theorem c7_counterexample :
    jobs [c7_rel] = Except.ok [c7_out "1000", c7_out "2000"] ∧
    (c7_out "1000").job_name = (c7_out "2000").job_name ∧
    c7_out "1000" ≠ c7_out "2000" := by
  refine ⟨rfl, rfl, by decide⟩

/-- C7 (amended): each concrete job's resolved name is the publisher's scope
identifier alone when the template name is absent (or empty, by Python
truthiness), and the scope identifier, an underscore and the template name
otherwise; within one publisher the resolved names of two templates differ
whenever their effective names differ (two distinct non-empty names, or one
non-empty name against a nameless template).  Uniqueness across one whole
aggregation result does not hold in general (see the counterexample). -/
theorem c7_name_formula_and_distinctness :
    (∀ (job : Job) (scope_id : String) (hosts : List (String × String))
       (md : JujuTopology) (result : Job),
       labeled_static_job_config job scope_id hosts md = .ok result →
       result.job_name = some (resolved_job_name scope_id job.job_name)) ∧
    (∀ scope_id : String, resolved_job_name scope_id none = scope_id) ∧
    (∀ scope_id s : String, s ≠ "" →
       resolved_job_name scope_id (some s) = scope_id ++ "_" ++ s) ∧
    (∀ scope_id s : String, s ≠ "" →
       resolved_job_name scope_id (some s) ≠ resolved_job_name scope_id none) ∧
    (∀ scope_id s t : String, s ≠ "" → t ≠ "" → s ≠ t →
       resolved_job_name scope_id (some s) ≠
         resolved_job_name scope_id (some t)) := by
  refine ⟨?_, fun _ => rfl, ?_, ?_, ?_⟩
  · intro job scope_id hosts md result hok
    cases hscs : job.static_configs with
    | none =>
      have herr : labeled_static_job_config job scope_id hosts md =
          .error "TypeError: static_configs is not iterable" := by
        simp [labeled_static_job_config, hscs]
      rw [herr] at hok
      cases hok
    | some scs =>
      cases hpg : processGroups hosts md scs with
      | error e =>
        have herr : labeled_static_job_config job scope_id hosts md = .error e := by
          simp [labeled_static_job_config, hscs, hpg]
        rw [herr] at hok
        cases hok
      | ok cf =>
        have hlab : labeled_static_job_config job scope_id hosts md = Except.ok
            { job_name := some (resolved_job_name scope_id job.job_name),
              static_configs := some cf.1,
              relabel_configs := some ((job.relabel_configs.getD []) ++
                [instance_relabel_config cf.2]) } := by
          simp [labeled_static_job_config, hscs, hpg]
        have hok2 := hlab.symm.trans hok
        injection hok2 with hres
        rw [← hres]
  · intro scope_id s hs
    simp [resolved_job_name, hs]
  · intro scope_id s hs
    simp only [resolved_job_name, if_neg hs]
    intro h
    have hlen := congrArg String.length h
    rw [String.length_append, String.length_append] at hlen
    have h1 : ("_" : String).length = 1 := rfl
    omega
  · intro scope_id s t hs ht hst
    simp only [resolved_job_name, if_neg hs, if_neg ht]
    intro h
    apply hst
    have hd := congrArg String.data h
    simp only [String.data_append, List.append_assoc] at hd
    exact String.ext (List.append_cancel_left (List.append_cancel_left hd))

/-- C7, witness for the amended theorem: distinct template names "first" and
"second" under one scope resolve to distinct job names. -/
theorem c7_witness :
    resolved_job_name "m_u_a" (some "first") ≠
      resolved_job_name "m_u_a" (some "second") :=
  c7_name_formula_and_distinctness.2.2.2.2 "m_u_a" "first" "second"
    (by decide) (by decide) (by decide)

/-- C8: in this shallow embedding the aggregation is a pure function of the
snapshot list (relations with their unit data and application data), so
recomputing it on unchanged inputs yields an identical output, including job
order, entry order and label content.  The Python code re-reads the same
relation state on each call and iterates lists and dicts in insertion order,
which the list-based model captures; determinism is therefore definitional
here. -/
theorem c8_aggregation_deterministic :
    ∀ rels : List Relation, jobs rels = jobs rels :=
  fun _ => rfl

/-- C9: in every static entry produced by expansion the identity-derived
topology values overwrite user-supplied values under the same keys - for any
user label map, looking up the group/instance/subgroup keys in the produced
entry yields the metadata values, and for member-derived entries looking up
the member-name key yields the member's name; user labels never shadow
them. -/
theorem c9_topology_labels_overwrite_user_labels :
    (∀ (targets : List String) (labels : List (String × String))
       (md : JujuTopology),
      dictGet (labeled_unitless_config targets labels md).labels
        "juju_model" = some md.model ∧
      dictGet (labeled_unitless_config targets labels md).labels
        "juju_model_uuid" = some md.model_uuid ∧
      dictGet (labeled_unitless_config targets labels md).labels
        "juju_application" = some md.application) ∧
    (∀ (unit_name host_address : String) (ports : List String)
       (labels : List (String × String)) (md : JujuTopology),
      dictGet (labeled_unit_config unit_name host_address ports labels md).labels
        "juju_unit" = some unit_name ∧
      dictGet (labeled_unit_config unit_name host_address ports labels md).labels
        "juju_model" = some md.model ∧
      dictGet (labeled_unit_config unit_name host_address ports labels md).labels
        "juju_model_uuid" = some md.model_uuid ∧
      dictGet (labeled_unit_config unit_name host_address ports labels md).labels
        "juju_application" = some md.application) := by
  refine ⟨fun targets labels md =>
    ⟨set_juju_labels_model _ _, set_juju_labels_uuid _ _, set_juju_labels_app _ _⟩,
    fun un ha ports labels md => ⟨dictGet_dictSet_self _ _ _, ?_, ?_, ?_⟩⟩
  · rw [labeled_unit_config, dictGet_dictSet_ne _ _ _ _ (by decide)]
    exact set_juju_labels_model _ _
  · rw [labeled_unit_config, dictGet_dictSet_ne _ _ _ _ (by decide)]
    exact set_juju_labels_uuid _ _
  · rw [labeled_unit_config, dictGet_dictSet_ne _ _ _ _ (by decide)]
    exact set_juju_labels_app _ _

end ParcaScrape
